import Mathlib

/-!
Shallow embedding of the maintenance-metrics aggregation logic of
`src/app.py` (Aircraft Maintenance Dashboard).  The dashboard loads a flat
table of maintenance records, derives summary KPIs, per-component MTBUR,
monthly and per-ATA removal series, a Pareto series with cumulative
percentages, MTTR, a scatter pairing, and a per-component detail view.

Modelling conventions:
* a pandas DataFrame is a `List MRecord`; row order is list order;
* numeric columns are exact rationals (`ℚ`) or integers (`ℤ`); the claims
  proved here are arithmetic identities that hold exactly in `ℚ`, so they
  hold in floating point up to rounding;
* `df.groupby(k)` sorts the distinct keys ascending (pandas default
  `sort=True`), modelled with `Finset.sort`;
* grouping by the `month` column, a `pd.Categorical` over the twelve month
  abbreviations, yields one entry per category in category order
  (pandas default `observed=False`), modelled by mapping over `month_order`;
* float division by zero does not yield a rational: pandas produces
  NaN (for 0/0) or ±inf (for x/0).  Scalar division whose denominator may
  be zero is therefore modelled as `Option ℚ`, with `none` standing for the
  non-finite float;
* the script mutates the global `df` in place (`df['month'] = ...` at
  lines 52 and 55, `df['ata_chapter'] = df['ata_chapter'].astype(str)` at
  line 72); this is modelled as explicit state passing: `prepareMonth` and
  `prepareAta` return the updated table.
-/

namespace AircraftApp

/-- A calendar date as parsed by `pd.to_datetime` from the `failure_date`
column; `strftime` only inspects the month here. -/
structure Date where
  year : Nat
  month : Nat
  day : Nat
deriving DecidableEq

/-- A raw value of the `ata_chapter` column: `pd.read_csv` may parse a
chapter code as an integer or keep it as a string; line 72 of the script
coerces the whole column to string. -/
inductive ChapterVal where
  | num : Int → ChapterVal
  | str : String → ChapterVal
deriving DecidableEq

/-- `astype(str)` on a single cell. -/
def ChapterVal.toStr : ChapterVal → String
  | .num n => toString n
  | .str s => s

/-- One row of the maintenance table.  The first six fields are the CSV
columns; `month` is the derived column added by line 52 of the script,
`none` while that column does not exist yet. -/
structure MRecord where
  component_name : String
  ata_chapter : ChapterVal
  failure_date : Date
  hours_since_install : ℚ
  unscheduled_removal : ℤ
  downtime_hours : ℚ
  month : Option String
deriving DecidableEq

/-- `month_order` from line 54 of the script. -/
def month_order : List String :=
  ["Jan", "Feb", "Mar", "Apr", "May", "Jun",
   "Jul", "Aug", "Sep", "Oct", "Nov", "Dec"]

/-- `pd.to_datetime(...).dt.strftime('%b')` on one cell: the 3-letter
English month abbreviation (C locale).  Out-of-range month numbers give
`""`, which is outside `month_order` and hence dropped by the categorical
grouping, matching pandas marking a non-category value as NaN. -/
def monthAbbrev (d : Date) : String := month_order.getD (d.month - 1) ""

/-- Line 52 and 55 on one row: set the derived `month` column. -/
def setMonth (r : MRecord) : MRecord :=
  { r with month := some (monthAbbrev r.failure_date) }

/-- Line 72 on one row: coerce `ata_chapter` to string. -/
def setAta (r : MRecord) : MRecord :=
  { r with ata_chapter := .str r.ata_chapter.toStr }

/-- State of the global `df` after lines 52 and 55. -/
def prepareMonth (rows : List MRecord) : List MRecord := rows.map setMonth

/-- State of the global `df` after line 72 (given the month step ran). -/
def prepareAta (rows : List MRecord) : List MRecord := rows.map setAta

/-- State of the global `df` after all in-place column assignments. -/
def prepare (rows : List MRecord) : List MRecord := prepareAta (prepareMonth rows)

/-- Line 24: `df['unscheduled_removal'].sum()`. -/
def total_unsc_removal (rows : List MRecord) : ℤ :=
  (rows.map (fun r => r.unscheduled_removal)).sum

/-- Line 25: `df['component_name'].nunique()`. -/
def total_components (rows : List MRecord) : ℕ :=
  (rows.map (fun r => r.component_name)).dedup.length

/-- Line 26: `df['downtime_hours'].sum()`. -/
def total_downtime (rows : List MRecord) : ℚ :=
  (rows.map (fun r => r.downtime_hours)).sum

/-- Line 40: `round(x, 2)`, rounding to two decimal places. -/
def round2 (q : ℚ) : ℚ := (round (q * 100) : ℤ) / 100

/-- The three summary KPIs displayed at lines 38-40. -/
def totalKpis (rows : List MRecord) : ℤ × ℕ × ℚ :=
  (total_unsc_removal rows, total_components rows, round2 (total_downtime rows))

/-- The rows of one `component_name` group: `df[df['component_name']==k]`,
also the group `x` passed to the `groupby('component_name').apply` lambda. -/
def groupRows (rows : List MRecord) (k : String) : List MRecord :=
  rows.filter (fun r => r.component_name = k)

/-- `x['hours_since_install'].sum()` over the group of `k`. -/
def hoursTotal (rows : List MRecord) (k : String) : ℚ :=
  ((groupRows rows k).map (fun r => r.hours_since_install)).sum

/-- `x['unscheduled_removal'].sum()` over the group of `k`. -/
def removalTotal (rows : List MRecord) (k : String) : ℤ :=
  ((groupRows rows k).map (fun r => r.unscheduled_removal)).sum

/-- Lines 29-30, for one group: the MTBUR value
`x['hours_since_install'].sum() / max(x['unscheduled_removal'].sum(), 1)`. -/
def mtburOf (rows : List MRecord) (k : String) : ℚ :=
  hoursTotal rows k / ((max (removalTotal rows k) 1 : ℤ) : ℚ)

/-- The ascending-sorted distinct component names: the index that pandas
`groupby('component_name')` produces (default `sort=True`). -/
def componentKeys (rows : List MRecord) : List String :=
  ((rows.map (fun r => r.component_name)).toFinset).sort (· ≤ ·)

/-- Lines 29-30: the `mtbur` series, indexed by sorted component name. -/
def mtbur (rows : List MRecord) : List (String × ℚ) :=
  (componentKeys rows).map (fun k => (k, mtburOf rows k))

/-- Line 162: `df.groupby('component_name')['downtime_hours'].mean()` on one
group (each group of an actual key is non-empty, so the count is positive). -/
def meanDowntime (rows : List MRecord) (k : String) : ℚ :=
  ((groupRows rows k).map (fun r => r.downtime_hours)).sum /
    ((groupRows rows k).length : ℚ)

/-- Line 162: the `mttr` series, indexed by sorted component name. -/
def mttr (rows : List MRecord) : List (String × ℚ) :=
  (componentKeys rows).map (fun k => (k, meanDowntime rows k))

/-- Lines 164-168: `scatter_df`, built by positionally zipping
`mtbur.index`, `mtbur.values` and `mttr.values`. -/
def scatter_df (rows : List MRecord) : List (String × ℚ × ℚ) :=
  List.zipWith (fun p q => (p.1, p.2, q.2)) (mtbur rows) (mttr rows)

/-- Line 162 again as the sum used by descending sorts; the per-component
removal totals in ascending key order: the series
`df.groupby('component_name')['unscheduled_removal'].sum()`. -/
def componentTotals (rows : List MRecord) : List (String × ℤ) :=
  (componentKeys rows).map (fun k => (k, removalTotal rows k))

/-- Line 85: `pareto`, the per-component removal totals after
`sort_values(ascending=False)`. -/
def pareto (rows : List MRecord) : List (String × ℤ) :=
  (componentTotals rows).mergeSort (fun p q => decide (q.2 ≤ p.2))

/-- `Series.cumsum()`: running sums. -/
def cumsum : List ℤ → List ℤ
  | [] => []
  | x :: xs => x :: (cumsum xs).map (fun y => x + y)

/-- One cell of `pareto.cumsum()/pareto.sum()*100` (line 87) as computed in
floats: when the divisor is 0 the float result is NaN (0/0) or ±inf (x/0),
never a finite percentage; `none` models that non-finite value. -/
def fdiv100 (c s : ℤ) : Option ℚ :=
  if s = 0 then none else some ((c : ℚ) / (s : ℚ) * 100)

/-- Line 87: `cumulative_percent = pareto.cumsum()/pareto.sum()*100`. -/
def cumulative_percent (rows : List MRecord) : List (Option ℚ) :=
  (cumsum ((pareto rows).map (fun p => p.2))).map
    (fun c => fdiv100 c (((pareto rows).map (fun p => p.2)).sum))

/-- Line 56 / 190 / 262 grouping: `groupby('month')['unscheduled_removal']
.sum()` where `month` is a `pd.Categorical` over `month_order`: one entry
per category, in category order, rows outside the categories dropped. -/
def monthlyGroup (rows : List MRecord) : List (String × ℤ) :=
  month_order.map (fun m =>
    (m, ((rows.filter (fun r => r.month = some m)).map
          (fun r => r.unscheduled_removal)).sum))

/-- Line 56: `monthly_failure` (before `reset_index`, which only cosmetically
turns the index into a column). -/
def monthly_failure (rows : List MRecord) : List (String × ℤ) :=
  monthlyGroup rows

/-- Line 73: `failure_per_ata`, grouping by the (stringified) ATA chapter. -/
def failure_per_ata (rows : List MRecord) : List (String × ℤ) :=
  (((rows.map (fun r => r.ata_chapter.toStr)).toFinset).sort (· ≤ ·)).map
    (fun a => (a, ((rows.filter (fun r => r.ata_chapter.toStr = a)).map
                    (fun r => r.unscheduled_removal)).sum))

/-- Lines 136-137: `avg_downtime`, mean downtime per component sorted
descending by value (the MTTR chart series). -/
def avg_downtime (rows : List MRecord) : List (String × ℚ) :=
  (mttr rows).mergeSort (fun p q => decide (q.2 ≤ p.2))

/-- Line 190: `trend`, the monthly removal sums of one component's rows. -/
def trend (rows : List MRecord) (comp : String) : List (String × ℤ) :=
  monthlyGroup (rows.filter (fun r => r.component_name = comp))

/-- Line 238: `comp_data`, the rows of the selected component. -/
def comp_data (rows : List MRecord) (c : String) : List MRecord :=
  rows.filter (fun r => r.component_name = c)

/-- Line 240: the component detail total removals. -/
def comp_removals (rows : List MRecord) (c : String) : ℤ :=
  ((comp_data rows c).map (fun r => r.unscheduled_removal)).sum

/-- Line 241: the component detail total downtime hours. -/
def comp_downtime (rows : List MRecord) (c : String) : ℚ :=
  ((comp_data rows c).map (fun r => r.downtime_hours)).sum

/-- Line 242: `comp_mtbur = comp_data['hours_since_install'].sum() /
max(comp_data['unscheduled_removal'].sum(), 1)`. -/
def comp_mtbur (rows : List MRecord) (c : String) : ℚ :=
  ((comp_data rows c).map (fun r => r.hours_since_install)).sum /
    ((max (comp_removals rows c) 1 : ℤ) : ℚ)

/-- Line 262: `monthly_trend = comp_data.groupby('month')[...].sum()`. -/
def monthly_trend (rows : List MRecord) (c : String) : List (String × ℤ) :=
  monthlyGroup (comp_data rows c)

/-! Sample tables, used to evaluate the definitions on concrete inputs.
`sample` is the worked example of the spec: component A with removals
1,0,1, hours 100,50,200, downtime 5,0,3; component B with one
zero-removal row, hours 80, downtime 0. -/

/-- First row of component A in the sample table. -/
def rowA1 : MRecord :=
  ⟨"A", .num 29, ⟨2024, 1, 5⟩, 100, 1, 5, none⟩

/-- Second row of component A in the sample table. -/
def rowA2 : MRecord :=
  ⟨"A", .num 29, ⟨2024, 3, 14⟩, 50, 0, 0, none⟩

/-- Third row of component A in the sample table. -/
def rowA3 : MRecord :=
  ⟨"A", .num 29, ⟨2024, 7, 2⟩, 200, 1, 3, none⟩

/-- The single row of component B in the sample table. -/
def rowB1 : MRecord :=
  ⟨"B", .num 32, ⟨2024, 3, 20⟩, 80, 0, 0, none⟩

/-- The spec's worked-example table. -/
def sample : List MRecord := [rowA1, rowA2, rowA3, rowB1]

/-- A one-row table whose only row has no unscheduled removal, so the grand
removal total is 0. -/
def sampleZero : List MRecord :=
  [⟨"A", .num 29, ⟨2024, 1, 5⟩, 100, 0, 5, none⟩]

/-! Helper lemmas. -/

/-- The composite in-place update applied to one row by the script. -/
def prepRow (r : MRecord) : MRecord := setAta (setMonth r)

lemma prepare_eq_map (rows : List MRecord) :
    prepare rows = rows.map prepRow := by
  simp [prepare, prepareAta, prepareMonth, List.map_map, prepRow, Function.comp]

lemma prepRow_name (r : MRecord) :
    (prepRow r).component_name = r.component_name := rfl

lemma prepRow_hours (r : MRecord) :
    (prepRow r).hours_since_install = r.hours_since_install := rfl

lemma prepRow_removal (r : MRecord) :
    (prepRow r).unscheduled_removal = r.unscheduled_removal := rfl

lemma prepRow_downtime (r : MRecord) :
    (prepRow r).downtime_hours = r.downtime_hours := rfl

lemma prepRow_idem (r : MRecord) : prepRow (prepRow r) = prepRow r := by
  simp [prepRow, setMonth, setAta, ChapterVal.toStr]

/-- Filtering on the component name commutes with a row map that preserves
the component name. -/
lemma filter_name_map (g : MRecord → MRecord)
    (hg : ∀ r, (g r).component_name = r.component_name)
    (rows : List MRecord) (k : String) :
    (rows.map g).filter (fun r => r.component_name = k) =
      (rows.filter (fun r => r.component_name = k)).map g := by
  rw [List.filter_map]
  congr 1
  apply List.filter_congr
  intro a _
  simp [Function.comp, hg]

lemma groupRows_map_prepRow (rows : List MRecord) (k : String) :
    groupRows (rows.map prepRow) k = (groupRows rows k).map prepRow :=
  filter_name_map prepRow prepRow_name rows k

lemma hoursTotal_prepare (rows : List MRecord) (k : String) :
    hoursTotal (prepare rows) k = hoursTotal rows k := by
  rw [prepare_eq_map]
  unfold hoursTotal
  rw [groupRows_map_prepRow, List.map_map]
  congr 1

lemma removalTotal_prepare (rows : List MRecord) (k : String) :
    removalTotal (prepare rows) k = removalTotal rows k := by
  rw [prepare_eq_map]
  unfold removalTotal
  rw [groupRows_map_prepRow, List.map_map]
  congr 1

lemma groupLen_prepare (rows : List MRecord) (k : String) :
    (groupRows (prepare rows) k).length = (groupRows rows k).length := by
  rw [prepare_eq_map, groupRows_map_prepRow, List.length_map]

lemma componentKeys_prepare (rows : List MRecord) :
    componentKeys (prepare rows) = componentKeys rows := by
  rw [prepare_eq_map]
  unfold componentKeys
  rw [List.map_map]
  congr 1

lemma mtburOf_prepare (rows : List MRecord) (k : String) :
    mtburOf (prepare rows) k = mtburOf rows k := by
  unfold mtburOf
  rw [hoursTotal_prepare, removalTotal_prepare]

lemma meanDowntime_prepare (rows : List MRecord) (k : String) :
    meanDowntime (prepare rows) k = meanDowntime rows k := by
  unfold meanDowntime
  rw [prepare_eq_map, groupRows_map_prepRow, List.map_map, List.length_map]
  congr 1

/-- Summing a row function group-by-group over a duplicate-free list of keys
that covers every row gives the plain sum over all rows (each row lies in
exactly one group). -/
lemma sum_over_keys (f : MRecord → ℤ) :
    ∀ (keys : List String) (rows : List MRecord), keys.Nodup →
      (∀ r ∈ rows, r.component_name ∈ keys) →
      (keys.map (fun k =>
        ((rows.filter (fun r => r.component_name = k)).map f).sum)).sum =
        (rows.map f).sum := by
  intro keys
  induction keys with
  | nil =>
    intro rows _ hcov
    have hrows : rows = [] := by
      rw [List.eq_nil_iff_forall_not_mem]
      intro a ha
      exact absurd (hcov a ha) (List.not_mem_nil _)
    subst hrows
    simp
  | cons k ks ih =>
    intro rows hnd hcov
    have hknotin : k ∉ ks := (List.nodup_cons.mp hnd).1
    have hndks : ks.Nodup := (List.nodup_cons.mp hnd).2
    set p : MRecord → Bool := fun r => r.component_name = k with hp
    have hperm := List.filter_append_perm p rows
    have hsum : (rows.map f).sum =
        ((rows.filter p).map f).sum +
          ((rows.filter (fun r => !p r)).map f).sum := by
      rw [← List.sum_append, ← List.map_append]
      exact ((hperm.map f).sum_eq).symm
    have hcov' : ∀ r ∈ rows.filter (fun r => !p r), r.component_name ∈ ks := by
      intro r hr
      rcases List.mem_filter.mp hr with ⟨hrmem, hrp⟩
      have hne : r.component_name ≠ k := by
        intro hEq
        simp [hp, hEq] at hrp
      rcases hcov r hrmem with hmem
      rcases List.mem_cons.mp hmem with hEq | hks
      · exact absurd hEq hne
      · exact hks
    have htail : ks.map (fun j =>
        ((rows.filter (fun r => r.component_name = j)).map f).sum) =
        ks.map (fun j =>
          (((rows.filter (fun r => !p r)).filter
            (fun r => r.component_name = j)).map f).sum) := by
      apply List.map_congr_left
      intro j hj
      have hjk : j ≠ k := by
        intro hEq
        exact hknotin (hEq ▸ hj)
      rw [List.filter_filter]
      congr 1
      congr 1
      apply List.filter_congr
      intro a _
      by_cases haj : a.component_name = j
      · simp [hp, haj, hjk]
      · simp [haj]
    rw [List.map_cons, List.sum_cons, htail,
      ih (rows.filter (fun r => !p r)) hndks hcov', hsum]

lemma mem_componentKeys (rows : List MRecord) (r : MRecord) (hr : r ∈ rows) :
    r.component_name ∈ componentKeys rows := by
  unfold componentKeys
  rw [Finset.mem_sort, List.mem_toFinset]
  exact List.mem_map_of_mem (fun x => x.component_name) hr

lemma componentKeys_nodup (rows : List MRecord) : (componentKeys rows).Nodup :=
  Finset.sort_nodup _ _

/-- The per-component removal totals sum back to the table's grand total. -/
lemma sum_componentTotals (rows : List MRecord) :
    ((componentTotals rows).map (fun p => p.2)).sum = total_unsc_removal rows := by
  unfold componentTotals total_unsc_removal
  rw [List.map_map]
  have h := sum_over_keys (fun r => r.unscheduled_removal) (componentKeys rows)
    rows (componentKeys_nodup rows) (fun r hr => mem_componentKeys rows r hr)
  simpa [Function.comp, removalTotal, groupRows] using h

lemma cumsum_ne_nil (l : List ℤ) (h : l ≠ []) : cumsum l ≠ [] := by
  cases l with
  | nil => exact absurd rfl h
  | cons x xs => simp [cumsum]

lemma getLast?_cons_of_ne_nil {α : Type} (x : α) (t : List α) (h : t ≠ []) :
    (x :: t).getLast? = t.getLast? := by
  cases t with
  | nil => exact absurd rfl h
  | cons a l => simp [List.getLast?_cons_cons]

lemma cumsum_getLast? (l : List ℤ) (h : l ≠ []) :
    (cumsum l).getLast? = some l.sum := by
  induction l with
  | nil => exact absurd rfl h
  | cons x xs ih =>
    by_cases hxs : xs = []
    · subst hxs; simp [cumsum]
    · have hcs : cumsum xs ≠ [] := cumsum_ne_nil xs hxs
      have hm : (cumsum xs).map (fun y => x + y) ≠ [] := by
        simpa using hcs
      rw [show cumsum (x :: xs) = x :: (cumsum xs).map (fun y => x + y) from rfl,
        getLast?_cons_of_ne_nil _ _ hm, List.getLast?_map, ih hxs]
      simp

lemma cumsum_head_mem (x : ℤ) (xs : List ℤ) :
    ∀ y ∈ (cumsum (x :: xs)).head?, y = x := by
  intro y hy
  simp [cumsum] at hy
  exact hy.symm

/-- Running sums of a list of non-negative integers are non-decreasing. -/
lemma cumsum_chain (l : List ℤ) (h : ∀ x ∈ l, 0 ≤ x) :
    List.Chain' (· ≤ ·) (cumsum l) := by
  induction l with
  | nil => simp [cumsum]
  | cons x xs ih =>
    have hxs : ∀ y ∈ xs, (0 : ℤ) ≤ y := fun y hy => h y (List.mem_cons_of_mem x hy)
    rw [show cumsum (x :: xs) = x :: (cumsum xs).map (fun y => x + y) from rfl]
    rw [List.chain'_cons']
    constructor
    · intro y hy
      rw [List.head?_map] at hy
      cases xs with
      | nil => simp [cumsum] at hy
      | cons a t =>
        have ha : (0 : ℤ) ≤ a := hxs a (List.mem_cons_self a t)
        have : (cumsum (a :: t)).head? = some a := by simp [cumsum]
        rw [this] at hy
        simp at hy
        subst hy
        linarith
    · rw [List.chain'_map]
      exact (ih hxs).imp (fun a b hab => by linarith)

/-- A sum of 0/1 indicators counts the rows where the indicator is 1. -/
lemma sum_eq_count (rows : List MRecord) :
    (∀ r ∈ rows, r.unscheduled_removal = 0 ∨ r.unscheduled_removal = 1) →
    total_unsc_removal rows =
      ((rows.filter (fun r => r.unscheduled_removal = 1)).length : ℤ) := by
  induction rows with
  | nil => intro _; simp [total_unsc_removal]
  | cons r rs ih =>
    intro h01
    have hr := h01 r (List.mem_cons_self r rs)
    have hrs := ih (fun x hx => h01 x (List.mem_cons_of_mem r hx))
    unfold total_unsc_removal at hrs ⊢
    rcases hr with h0 | h1
    · rw [List.map_cons, List.sum_cons, h0, List.filter_cons]
      simp only [h0]
      norm_num
      exact hrs
    · rw [List.map_cons, List.sum_cons, h1, List.filter_cons]
      simp only [h1]
      norm_num
      rw [hrs]
      ring

/-! Claim theorems. -/

/-- C1: for every component group, the reported MTBUR equals
`sum(hours_since_install) / max(sum(unscheduled_removal), 1)`; the
denominator is never zero, and for a group with zero unscheduled removals
the MTBUR equals the group's total hours since install exactly. -/
theorem C1_mtbur_formula (rows : List MRecord) (k : String) :
    ((max (removalTotal rows k) 1 : ℤ) : ℚ) ≠ 0 ∧
    mtburOf rows k =
      hoursTotal rows k / ((max (removalTotal rows k) 1 : ℤ) : ℚ) ∧
    (removalTotal rows k = 0 → mtburOf rows k = hoursTotal rows k) := by
  refine ⟨?_, rfl, ?_⟩
  · intro h0
    have h1 : (1 : ℤ) ≤ max (removalTotal rows k) 1 := le_max_right _ _
    have h2 : (max (removalTotal rows k) 1 : ℤ) = 0 := by exact_mod_cast h0
    omega
  · intro h
    unfold mtburOf
    rw [h]
    norm_num

/-- Witness for C1: in the worked example, component B has zero unscheduled
removals, and its MTBUR is exactly its 80 hours since install. -/
theorem C1_mtbur_formula_witness : mtburOf sample "B" = 80 := by
  have h := (C1_mtbur_formula sample "B").2.2 (by decide)
  have hAB : ("A" : String) ≠ "B" := by decide
  rw [h]
  norm_num [hoursTotal, groupRows, sample, rowA1, rowA2, rowA3, rowB1,
    List.filter_cons, List.filter_nil, hAB]

/-- C2: `total_kpis` reports the sum of `unscheduled_removal` (for 0/1
indicators, the count of rows with indicator 1), the number of distinct
component names, and the 2-decimal rounding of the `downtime_hours` sum;
on the empty table all three KPIs are zero. -/
theorem C2_total_kpis (rows : List MRecord) :
    (totalKpis rows).1 = (rows.map (fun r => r.unscheduled_removal)).sum ∧
    ((∀ r ∈ rows, r.unscheduled_removal = 0 ∨ r.unscheduled_removal = 1) →
      (totalKpis rows).1 =
        ((rows.filter (fun r => r.unscheduled_removal = 1)).length : ℤ)) ∧
    (totalKpis rows).2.1 =
      ((rows.map (fun r => r.component_name)).toFinset).card ∧
    (totalKpis rows).2.2 = round2 ((rows.map (fun r => r.downtime_hours)).sum) ∧
    totalKpis ([] : List MRecord) = (0, 0, 0) := by
  refine ⟨rfl, ?_, ?_, rfl, ?_⟩
  · intro h01
    exact sum_eq_count rows h01
  · show total_components rows = _
    rw [List.card_toFinset]
    rfl
  · show (0, 0, round2 0) = (0, 0, 0)
    norm_num [round2]

/-- Witness for C2: on the worked example, whose indicators are all 0 or 1,
the removals KPI equals the count of indicator-1 rows. -/
theorem C2_total_kpis_witness :
    (totalKpis sample).1 =
      ((sample.filter (fun r => r.unscheduled_removal = 1)).length : ℤ) :=
  (C2_total_kpis sample).2.1 (by decide)

/-- C5: when the selected component name matches no row, the detail view's
filtered table is empty and its total removals, total downtime and MTBUR
are all zero; nothing is raised (every expression is total). -/
theorem C5_component_detail_absent (rows : List MRecord) (c : String)
    (h : ∀ r ∈ rows, r.component_name ≠ c) :
    comp_data rows c = [] ∧ comp_removals rows c = 0 ∧
      comp_downtime rows c = 0 ∧ comp_mtbur rows c = 0 := by
  have hnil : comp_data rows c = [] := by
    unfold comp_data
    rw [List.filter_eq_nil_iff]
    intro a ha
    simp [h a ha]
  refine ⟨hnil, ?_, ?_, ?_⟩
  · unfold comp_removals
    rw [hnil]
    simp
  · unfold comp_downtime
    rw [hnil]
    simp
  · unfold comp_mtbur comp_removals
    rw [hnil]
    simp

/-- Witness for C5: the worked example has no component "X", and the detail
aggregates for "X" are all zero. -/
theorem C5_component_detail_absent_witness :
    comp_data sample "X" = [] ∧ comp_removals sample "X" = 0 ∧
      comp_downtime sample "X" = 0 ∧ comp_mtbur sample "X" = 0 :=
  C5_component_detail_absent sample "X" (by decide)

/-- C3: whenever the table's total unscheduled-removal count is positive
(and the indicators are non-negative, as 0/1 indicators are), every
cumulative-percent cell of the Pareto series is a defined (finite) value,
the sequence is non-decreasing, and its final value is exactly 100. -/
theorem C3_pareto_cumulative (rows : List MRecord)
    (h01 : ∀ r ∈ rows, 0 ≤ r.unscheduled_removal)
    (hpos : 0 < total_unsc_removal rows) :
    ∃ L : List ℚ, cumulative_percent rows = L.map some ∧
      List.Chain' (· ≤ ·) L ∧ L.getLast? = some 100 := by
  have hperm : (pareto rows).Perm (componentTotals rows) :=
    List.mergeSort_perm (componentTotals rows) _
  have hsuml : ((pareto rows).map (fun p => p.2)).sum = total_unsc_removal rows := by
    rw [(hperm.map (fun p => p.2)).sum_eq, sum_componentTotals]
  have hS : ((pareto rows).map (fun p => p.2)).sum ≠ 0 := by omega
  have hSpos : (0 : ℤ) < ((pareto rows).map (fun p => p.2)).sum := by omega
  have hnonneg : ∀ x ∈ (pareto rows).map (fun p => p.2), (0 : ℤ) ≤ x := by
    intro x hx
    have hx' : x ∈ (componentTotals rows).map (fun p => p.2) :=
      ((hperm.map (fun p => p.2)).mem_iff).mp hx
    rcases List.mem_map.mp hx' with ⟨p, hp, hpx⟩
    rcases List.mem_map.mp hp with ⟨k, _, hkp⟩
    subst hkp
    rw [← hpx]
    apply List.sum_nonneg
    intro y hy
    rcases List.mem_map.mp hy with ⟨r, hr, hry⟩
    rw [← hry]
    exact h01 r (List.mem_of_mem_filter hr)
  refine ⟨(cumsum ((pareto rows).map (fun p => p.2))).map
      (fun c : ℤ =>
        (c : ℚ) / ((((pareto rows).map (fun p => p.2)).sum : ℤ) : ℚ) * 100),
    ?_, ?_, ?_⟩
  · unfold cumulative_percent
    rw [List.map_map]
    apply List.map_congr_left
    intro c _
    simp [fdiv100, hS, Function.comp]
  · rw [List.chain'_map]
    apply (cumsum_chain _ hnonneg).imp
    intro a b hab
    have h1 : (0 : ℚ) < ((((pareto rows).map (fun p => p.2)).sum : ℤ) : ℚ) := by
      exact_mod_cast hSpos
    have h2 : (a : ℚ) ≤ (b : ℚ) := by exact_mod_cast hab
    gcongr
  · have hlne : (pareto rows).map (fun p => p.2) ≠ [] := by
      intro h0
      rw [h0] at hsuml
      simp at hsuml
      omega
    rw [List.getLast?_map, cumsum_getLast? _ hlne]
    have hq : ((((pareto rows).map (fun p => p.2)).sum : ℤ) : ℚ) ≠ 0 :=
      Int.cast_ne_zero.mpr hS
    rw [Option.map_some', div_self hq, one_mul]

/-- Witness for C3: the worked example has 2 total removals, so its
cumulative-percent sequence is all-defined, non-decreasing and ends at 100. -/
theorem C3_pareto_cumulative_witness :
    ∃ L : List ℚ, cumulative_percent sample = L.map some ∧
      List.Chain' (· ≤ ·) L ∧ L.getLast? = some 100 :=
  C3_pareto_cumulative sample (by decide) (by decide)

/-- C4 (code bug in line 87 of `src/app.py`): on a table whose only row has
zero unscheduled removals, the grand total is 0 and
`cumulative_percent = pareto.cumsum()/pareto.sum()*100` divides by zero, so
the single cell is the non-finite float NaN (modelled `none`), not a
defined percentage such as 0%. -/
theorem C4_zero_total_not_defined : cumulative_percent sampleZero = [none] := by
  have hkeys : componentKeys sampleZero = ["A"] := by
    simp [componentKeys, sampleZero]
  have hpar : pareto sampleZero = [("A", 0)] := by
    unfold pareto componentTotals
    rw [hkeys]
    simp [removalTotal, groupRows, sampleZero]
  simp [cumulative_percent, hpar, cumsum, fdiv100]

/-- C6 counterexample: the month-derivation step at line 52 of the script
(`df['month'] = ...`) changes the input table in place: on the worked
example the resulting table differs from the input. -/
theorem C6_counterexample : prepareMonth sample ≠ sample := by decide

/-- C6 amended: the script does mutate the input table, but only by adding
the derived `month` column and replacing `ata_chapter` with its string
form; the values of the five other columns (`component_name`,
`failure_date`, `hours_since_install`, `unscheduled_removal`,
`downtime_hours`) are unchanged in every row, and all aggregates are new
derived tables. -/
theorem C6_mutation_scope (rows : List MRecord) :
    prepare rows = rows.map (fun r =>
      { r with month := some (monthAbbrev r.failure_date),
               ata_chapter := ChapterVal.str r.ata_chapter.toStr }) ∧
    (prepare rows).map (fun r =>
        (r.component_name, r.failure_date, r.hours_since_install,
         r.unscheduled_removal, r.downtime_hours)) =
      rows.map (fun r =>
        (r.component_name, r.failure_date, r.hours_since_install,
         r.unscheduled_removal, r.downtime_hours)) := by
  constructor
  · rw [prepare_eq_map]
    apply List.map_congr_left
    intro r _
    rfl
  · rw [prepare_eq_map, List.map_map]
    apply List.map_congr_left
    intro r _
    rfl

lemma prepare_idem (rows : List MRecord) : prepare (prepare rows) = prepare rows := by
  rw [prepare_eq_map, prepare_eq_map, List.map_map]
  apply List.map_congr_left
  intro r _
  exact prepRow_idem r

lemma map_proj_prepare {α : Type} (f : MRecord → α)
    (hf : ∀ r, f (prepRow r) = f r) (rows : List MRecord) :
    (prepare rows).map f = rows.map f := by
  rw [prepare_eq_map, List.map_map]
  apply List.map_congr_left
  intro r _
  exact hf r

lemma totalKpis_prepare (rows : List MRecord) :
    totalKpis (prepare rows) = totalKpis rows := by
  unfold totalKpis total_unsc_removal total_components total_downtime
  rw [map_proj_prepare (fun r => r.unscheduled_removal) (fun r => rfl),
    map_proj_prepare (fun r => r.component_name) (fun r => rfl),
    map_proj_prepare (fun r => r.downtime_hours) (fun r => rfl)]

lemma componentTotals_prepare (rows : List MRecord) :
    componentTotals (prepare rows) = componentTotals rows := by
  unfold componentTotals
  rw [componentKeys_prepare]
  apply List.map_congr_left
  intro k _
  rw [removalTotal_prepare]

lemma pareto_prepare (rows : List MRecord) : pareto (prepare rows) = pareto rows := by
  unfold pareto
  rw [componentTotals_prepare]

lemma mtbur_prepare (rows : List MRecord) : mtbur (prepare rows) = mtbur rows := by
  unfold mtbur
  rw [componentKeys_prepare]
  apply List.map_congr_left
  intro k _
  rw [mtburOf_prepare]

lemma mttr_prepare (rows : List MRecord) : mttr (prepare rows) = mttr rows := by
  unfold mttr
  rw [componentKeys_prepare]
  apply List.map_congr_left
  intro k _
  rw [meanDowntime_prepare]

lemma avg_downtime_prepare (rows : List MRecord) :
    avg_downtime (prepare rows) = avg_downtime rows := by
  unfold avg_downtime
  rw [mttr_prepare]

lemma comp_mtbur_prepare (rows : List MRecord) (c : String) :
    comp_mtbur (prepare rows) c = comp_mtbur rows c := by
  unfold comp_mtbur comp_removals comp_data
  rw [prepare_eq_map, filter_name_map prepRow prepRow_name,
    List.map_map, List.map_map]
  rfl

/-- C7: every aggregator operation is modelled as a pure function of the
table, so two invocations on the same table are definitionally identical;
moreover the script's in-place preparation of the table is idempotent and
leaves every derived entity unchanged, so re-running the pipeline (as the
reactive UI does on each interaction) reproduces identical results. -/
theorem C7_deterministic_idempotent (rows : List MRecord) (c : String) :
    prepare (prepare rows) = prepare rows ∧
    totalKpis (prepare rows) = totalKpis rows ∧
    mtbur (prepare rows) = mtbur rows ∧
    mttr (prepare rows) = mttr rows ∧
    avg_downtime (prepare rows) = avg_downtime rows ∧
    pareto (prepare rows) = pareto rows ∧
    monthly_failure (prepare (prepare rows)) = monthly_failure (prepare rows) ∧
    failure_per_ata (prepare (prepare rows)) = failure_per_ata (prepare rows) ∧
    trend (prepare (prepare rows)) c = trend (prepare rows) c ∧
    comp_mtbur (prepare rows) c = comp_mtbur rows c ∧
    monthly_trend (prepare (prepare rows)) c = monthly_trend (prepare rows) c := by
  refine ⟨prepare_idem rows, totalKpis_prepare rows, mtbur_prepare rows,
    mttr_prepare rows, avg_downtime_prepare rows, pareto_prepare rows,
    congrArg monthly_failure (prepare_idem rows),
    congrArg failure_per_ata (prepare_idem rows),
    ?_, comp_mtbur_prepare rows c, ?_⟩
  · rw [prepare_idem]
  · rw [prepare_idem]

/-- Taking first components of a list keyed by itself gives the key list
back. -/
lemma map_fst_keyed {α β : Type} (l : List α) (f : α → β) :
    (l.map (fun a => (a, f a))).map (fun p => p.1) = l := by
  induction l with
  | nil => rfl
  | cons x xs ih => simp only [List.map_cons, ih]

/-- C8: the month key of every prepared row is the 3-letter abbreviation of
its `failure_date` month; the monthly series is keyed Jan through Dec in
that fixed order regardless of which months occur; each month's value is
the sum of `unscheduled_removal` over the rows whose failure date falls in
that month; and `trend` (reliability trend) and `monthly_trend` (component
detail) are the same grouping applied to one component's rows. -/
theorem C8_monthly_series (rows : List MRecord) (c : String) :
    (monthly_failure (prepareMonth rows)).map (fun p => p.1) = month_order ∧
    (∀ r ∈ prepareMonth rows, r.month = some (monthAbbrev r.failure_date)) ∧
    monthly_failure (prepareMonth rows) =
      month_order.map (fun m =>
        (m, ((rows.filter (fun r => monthAbbrev r.failure_date = m)).map
              (fun r => r.unscheduled_removal)).sum)) ∧
    trend rows c = monthlyGroup (rows.filter (fun r => r.component_name = c)) ∧
    monthly_trend rows c = monthlyGroup (comp_data rows c) := by
  refine ⟨?_, ?_, ?_, rfl, rfl⟩
  · exact map_fst_keyed month_order _
  · intro r hr
    rcases List.mem_map.mp hr with ⟨r', _, hr'⟩
    subst hr'
    rfl
  · unfold monthly_failure monthlyGroup
    apply List.map_congr_left
    intro m _
    congr 1
    unfold prepareMonth
    rw [List.filter_map, List.map_map]
    have hfun : ((fun r : MRecord => decide (r.month = some m)) ∘ setMonth) =
        (fun r : MRecord => decide (monthAbbrev r.failure_date = m)) := by
      funext r
      simp [setMonth]
    rw [hfun]
    rfl

/-- Witness for C8: on the worked example the monthly series is keyed by
the full Jan-to-Dec axis. -/
theorem C8_monthly_series_witness :
    (monthly_failure (prepareMonth sample)).map (fun p => p.1) = month_order :=
  (C8_monthly_series sample "A").1

/-- C9 (implicit in the categorical grouping): the monthly grouping always
returns exactly 12 entries, one per month abbreviation in calendar order,
with value 0 for every month with no matching records — the code commits
to full-year zero-fill; the component-detail monthly trend has the same
12-entry shape. -/
theorem C9_twelve_months (rows : List MRecord) (c : String) :
    (monthly_failure rows).length = 12 ∧
    (monthly_failure rows).map (fun p => p.1) = month_order ∧
    (∀ m v, (m, v) ∈ monthly_failure rows →
      (∀ r ∈ rows, r.month ≠ some m) → v = 0) ∧
    (monthly_trend rows c).length = 12 := by
  refine ⟨?_, ?_, ?_, ?_⟩
  · simp [monthly_failure, monthlyGroup, month_order]
  · exact map_fst_keyed month_order _
  · intro m v hmv hno
    unfold monthly_failure monthlyGroup at hmv
    rcases List.mem_map.mp hmv with ⟨m', _, hEq⟩
    injection hEq with h1 h2
    rw [← h2]
    have hnil : rows.filter (fun r => r.month = some m') = [] := by
      rw [List.filter_eq_nil_iff]
      intro a ha
      have hm := hno a ha
      rw [← h1] at hm
      simpa using hm
    rw [hnil]
    simp
  · simp [monthly_trend, monthlyGroup, month_order]

/-- Witness for C9: the worked example covers only two calendar months, yet
both the monthly series and a component's monthly trend have 12 entries. -/
theorem C9_twelve_months_witness :
    (monthly_failure sample).length = 12 ∧
      (monthly_trend sample "A").length = 12 :=
  ⟨(C9_twelve_months sample "A").1, (C9_twelve_months sample "A").2.2.2⟩

/-- C10 (implicit): the `mtbur` and `mttr` series are keyed by the same
ascending-sorted component sequence, so `scatter_df`, built by positionally
zipping `mtbur.index` with `mtbur.values` and `mttr.values`, pairs each
component with its own MTBUR and its own mean downtime. -/
theorem C10_scatter_alignment (rows : List MRecord) :
    (mtbur rows).map (fun p => p.1) = (mttr rows).map (fun p => p.1) ∧
    List.Sorted (· ≤ ·) ((mtbur rows).map (fun p => p.1)) ∧
    scatter_df rows = (componentKeys rows).map
      (fun k => (k, mtburOf rows k, meanDowntime rows k)) ∧
    (∀ e ∈ scatter_df rows,
      e.2.1 = mtburOf rows e.1 ∧ e.2.2 = meanDowntime rows e.1) := by
  have hmt : (mtbur rows).map (fun p => p.1) = componentKeys rows := by
    unfold mtbur
    exact map_fst_keyed (componentKeys rows) _
  have hmr : (mttr rows).map (fun p => p.1) = componentKeys rows := by
    unfold mttr
    exact map_fst_keyed (componentKeys rows) _
  have h3 : scatter_df rows = (componentKeys rows).map
      (fun k => (k, mtburOf rows k, meanDowntime rows k)) := by
    unfold scatter_df mtbur mttr
    rw [List.zipWith_map_left, List.zipWith_map_right, List.zipWith_same]
  refine ⟨hmt.trans hmr.symm, ?_, h3, ?_⟩
  · rw [hmt]
    exact Finset.sort_sorted _ _
  · intro e he
    rw [h3] at he
    rcases List.mem_map.mp he with ⟨k, _, hk⟩
    subst hk
    exact ⟨rfl, rfl⟩

lemma componentKeys_sample : componentKeys sample = ["A", "B"] := by
  have h1 : (sample.map (fun r => r.component_name)).toFinset =
      ({"A", "B"} : Finset String) := by
    simp [sample, rowA1, rowA2, rowA3, rowB1]
  unfold componentKeys
  rw [h1, Finset.sort_insert, Finset.sort_singleton]
  · intro b hb
    have hb' : b = "B" := by simpa using hb
    subst hb'
    exact le_of_lt (by rw [String.lt_iff_toList_lt]; decide)
  · decide

/-- Witness for C10: in the worked example the scatter row of component A
carries A's own MTBUR (175) and A's own mean downtime (8/3). -/
theorem C10_scatter_alignment_witness :
    (175 : ℚ) = mtburOf sample "A" ∧ (8 / 3 : ℚ) = meanDowntime sample "A" := by
  have hBA : ("B" : String) ≠ "A" := by decide
  have hmtA : mtburOf sample "A" = 175 := by
    norm_num [mtburOf, hoursTotal, removalTotal, groupRows, sample,
      rowA1, rowA2, rowA3, rowB1, List.filter_cons, List.filter_nil, hBA]
  have hmdA : meanDowntime sample "A" = 8 / 3 := by
    norm_num [meanDowntime, groupRows, sample,
      rowA1, rowA2, rowA3, rowB1, List.filter_cons, List.filter_nil, hBA]
  have hmem : ("A", (175 : ℚ), (8 / 3 : ℚ)) ∈ scatter_df sample := by
    rw [(C10_scatter_alignment sample).2.2.1, componentKeys_sample]
    simp [hmtA, hmdA]
  exact (C10_scatter_alignment sample).2.2.2 _ hmem

end AircraftApp
